import Mathlib

/-
Verification development for the HelmUpgradeBot repository
(HelmUpgradeBot/hub23-deploy-upgrades).  The definitions below are a shallow
embedding of `HelmUpgradeBot.py`: the version comparator (`check_versions`),
the manifest mutator (`update_local_chart`), the branch lifecycle
(`delete_old_branch`, `checkout_branch`, `add_commit_push`,
`create_update_pr`), the fork lifecycle (`check_fork_exists`, `remove_fork`,
`make_fork`, `clone_fork`, `upgrade_chart`) and the cleanup handler
(`clean_up`).  External commands and HTTP calls are modelled by an
environment of success flags (`Env`); the mutable process state (filesystem,
fork, branches, trace of side effects) is threaded explicitly (`Bot`).
Python exceptions are modelled with `Except String` / `Option String`
carrying the exception class name.
-/

namespace HelmBot

/-- Python `dict` lookup on an insertion-ordered association list
(first matching key wins; `none` models a `KeyError`). -/
def dictGet {α : Type} (m : List (String × α)) (k : String) : Option α :=
  match m with
  | [] => none
  | (k₀, v) :: rest => if k₀ = k then some v else dictGet rest k

/-- Python `list.remove`: drop the first occurrence of `x` (the source relies
on `x` being present; absence would be a `ValueError`, checked by callers). -/
def removeFirst (xs : List String) (x : String) : List String :=
  match xs with
  | [] => []
  | y :: ys => if y = x then ys else y :: removeFirst ys x

/-- Python `itertools.compress`: keep the elements whose flag is `true`. -/
def compress (xs : List String) (bs : List Bool) : List String :=
  match xs, bs with
  | x :: xs, b :: bs => if b then x :: compress xs bs else compress xs bs
  | _, _ => []

/-- Sequential `Except`-valued map, mirroring a Python list comprehension:
elements are evaluated left to right and the first exception propagates. -/
def mapME {α β : Type} (f : α → Except String β) : List α → Except String (List β)
  | [] => .ok []
  | x :: xs =>
    match f x with
    | .error e => .error e
    | .ok y =>
      match mapME f xs with
      | .error e => .error e
      | .ok ys => .ok (y :: ys)

/-- Sequential `Except`-valued fold, mirroring a Python `for` loop whose body
may raise: iterations run left to right and the first exception propagates. -/
def foldME {α β : Type} (f : β → α → Except String β) (init : β) : List α → Except String β
  | [] => .ok init
  | x :: xs =>
    match f init x with
    | .error e => .error e
    | .ok b => foldME f b xs

/-! ## Chart info (`self.chart_info`)

`get_chart_versions` builds `chart_info` as a dict whose key for the
deployment maps to a nested dict `{dependency name ↦ {"version": v}}` and
whose other keys map to `{"version": v}`.  The nested `{"version": v}` dicts
are collapsed to their version string. -/

/-- A value of the `chart_info` dict: either `{"version": v}` (published
version of a dependency chart) or the deployment entry
`{name ↦ {"version": v}}` (deployed versions). -/
inductive ChartVal where
  | version (v : String)
  | deps (m : List (String × String))
deriving DecidableEq, Repr

/-- Whether a `chart_info` entry is a `{"version": v}` record. -/
def isVersion : ChartVal → Bool
  | .version _ => true
  | .deps _ => false

/-- The input of the comparator: the deployment name and the `chart_info`
dict (insertion ordered). -/
structure CompareInput where
  deployment : String
  chartInfo : List (String × ChartVal)

/-- Source `self.chart_info[chart]["version"]`: the published version of a
dependency chart.  A missing key or a nested dict under `chart` is a lookup
error (the deployment's nested dict has no `"version"` key in any run of the
source, since dependencies are charts, not the literal name `"version"`). -/
def getVersion (ci : List (String × ChartVal)) (c : String) : Except String String :=
  match dictGet ci c with
  | some (.version v) => .ok v
  | some (.deps _) => .error "KeyError"
  | none => .error "KeyError"

/-- Source `self.chart_info[self.deployment][chart]["version"]`: the deployed
version of dependency `chart`.  Any missing key raises a `KeyError`; if the
deployment entry is not the nested dict the chained lookup also fails. -/
def deployedVersion (ci : List (String × ChartVal)) (d c : String) : Except String String :=
  match dictGet ci d with
  | some (.deps m) =>
    match dictGet m c with
    | some v => .ok v
    | none => .error "KeyError"
  | some (.version _) => .error "KeyError"
  | none => .error "KeyError"

/-- Source lines `charts = list(self.chart_info.keys());
charts.remove(self.deployment)`: the dependency chart names in insertion
order.  `list.remove` raises `ValueError` when the deployment is absent. -/
def chartsOf (inp : CompareInput) : Except String (List String) :=
  if inp.deployment ∈ inp.chartInfo.map Prod.fst then
    .ok (removeFirst (inp.chartInfo.map Prod.fst) inp.deployment)
  else .error "ValueError"

/-- One entry of the source's `condition` list: exact string inequality
between the published and the deployed version of `c` (left operand is
evaluated first, as in the source). -/
def conditionFor (inp : CompareInput) (c : String) : Except String Bool :=
  match getVersion inp.chartInfo c with
  | .error e => .error e
  | .ok pub =>
    match deployedVersion inp.chartInfo inp.deployment c with
    | .error e => .error e
    | .ok dep => .ok (pub != dep)

/-- The comparator part of `HelmUpgradeBot.check_versions`: the list of
chart names passed to `upgrade_chart`
(`list(compress(charts, condition))`). -/
def checkVersionsE (inp : CompareInput) : Except String (List String) :=
  match chartsOf inp with
  | .error e => .error e
  | .ok charts =>
    match mapME (conditionFor inp) charts with
    | .error e => .error e
    | .ok conds => .ok (compress charts conds)

/-- Total accessor used to state theorems: the published version of `c`,
defaulting to `""` when the lookup would raise. -/
def pubVersionD (ci : List (String × ChartVal)) (c : String) : String :=
  match dictGet ci c with
  | some (.version v) => v
  | _ => ""

/-- Total accessor used to state theorems: the deployed version of `c`,
defaulting to `""` when the lookup would raise. -/
def depVersionD (ci : List (String × ChartVal)) (d c : String) : String :=
  match dictGet ci d with
  | some (.deps m) =>
    match dictGet m c with
    | some v => v
    | none => ""
  | _ => ""

/-- Whether an `Except` result is a normal return. -/
def isOkE {α : Type} : Except String α → Bool
  | .ok _ => true
  | .error _ => false

/-! ## The manifest (`<chart_name>/requirements.yaml`)

The loaded YAML document of `update_local_chart`: a top-level mapping whose
`"dependencies"` key holds a list of mappings of scalar fields, and whose
other keys hold scalars.  Python dicts preserve insertion order, so mappings
are ordered association lists. -/

/-- One dependency entry of the manifest: an insertion-ordered mapping of
scalar fields (`name`, `version`, `repository`, ...). -/
abbrev Dep := List (String × String)

/-- A top-level manifest value. -/
inductive TopVal where
  | scalar (s : String)
  | depList (ds : List Dep)
deriving DecidableEq, Repr

/-- The loaded manifest document: ordered top-level mapping. -/
abbrev Manifest := List (String × TopVal)

/-- Python dict assignment `d[k] = v`: update in place when the key exists
(position preserved), append otherwise. -/
def setField (d : Dep) (k v : String) : Dep :=
  if k ∈ d.map Prod.fst then d.map (fun kv => if kv.1 = k then (k, v) else kv)
  else d ++ [(k, v)]

/-- Replace the value at an existing top-level key, preserving positions
(models in-place mutation of the list object held under that key). -/
def setTop (m : Manifest) (k : String) (v : TopVal) : Manifest :=
  m.map (fun kv => if kv.1 = k then (k, v) else kv)

/-- One dependency of the inner loop of `update_local_chart`:
`if dependency["name"] == chart: dependency["version"] = chart_info[chart]["version"]`.
A dependency without a `"name"` key raises `KeyError`; the `chart_info`
lookup is evaluated only when the name matches, as in the source. -/
def patchDep (ci : List (String × ChartVal)) (c : String) (d : Dep) : Except String Dep :=
  match dictGet d "name" with
  | none => .error "KeyError"
  | some n =>
    if n = c then
      match getVersion ci c with
      | .error e => .error e
      | .ok v => .ok (setField d "version" v)
    else .ok d

/-- `HelmUpgradeBot.update_local_chart` on the loaded document:
`chart_yaml["dependencies"]` raises `KeyError` when absent (there is no
`ManifestFormatError` in the source); a scalar there would fail on the chained
item access (`TypeError`); otherwise the nested loops patch the version of
every dependency whose name is in `charts_to_update` and the document is
written back. -/
def update_local_chart (ci : List (String × ChartVal)) (m : Manifest)
    (chartsToUpdate : List String) : Except String Manifest :=
  match dictGet m "dependencies" with
  | none => .error "KeyError"
  | some (.scalar _) => .error "TypeError"
  | some (.depList ds) =>
    match foldME (fun ds c => mapME (patchDep ci c) ds) ds chartsToUpdate with
    | .error e => .error e
    | .ok ds => .ok (setTop m "dependencies" (.depList ds))

/-- Frame relation of the manifest mutator on one dependency: the name
lookup is unchanged, the non-version fields are unchanged (order included),
and a dependency whose name is outside the upgrade set is untouched. -/
abbrev DepFrame (cs : List String) (d d' : Dep) : Prop :=
  dictGet d' "name" = dictGet d "name" ∧
  d'.filter (fun kv => kv.1 != "version") = d.filter (fun kv => kv.1 != "version") ∧
  (∀ n, dictGet d "name" = some n → n ∉ cs → d' = d)

/-- The frame relation for a single chart of the upgrade set. -/
abbrev DepFrameOne (c : String) (d d' : Dep) : Prop :=
  dictGet d' "name" = dictGet d "name" ∧
  d'.filter (fun kv => kv.1 != "version") = d.filter (fun kv => kv.1 != "version") ∧
  (∀ n, dictGet d "name" = some n → n ≠ c → d' = d)

/-- Whether a dependency has a `"name"` field whose value is outside the
upgrade set (the silently-skipped case of the mutator). -/
def depNameOutside (cs : List String) (d : Dep) : Bool :=
  match dictGet d "name" with
  | some n => !(cs.contains n)
  | none => false

/-! ## Serialization

`update_local_chart` writes the document back with `yaml.safe_dump`, whose
default `sort_keys=True` emits every mapping with its keys sorted
lexicographically (Python string order, i.e. by code point), regardless of
the insertion order of the loaded document.  `serialize` below is the
order-preserving text form of a document (the layout of the document as
loaded); `safeDump` models the source's `dump(chart_yaml, f)` as
serialization of the key-sorted document. -/

/-- Code-point lexicographic order on character lists (Python `str` order,
the order `safe_dump` sorts mapping keys by). -/
def leChars : List Char → List Char → Bool
  | [], _ => true
  | _ :: _, [] => false
  | a :: as, b :: bs =>
    if a.toNat < b.toNat then true
    else if b.toNat < a.toNat then false
    else leChars as bs

/-- Key order used by `safe_dump`. -/
def leKey (a b : String) : Bool := leChars a.toList b.toList

/-- Insert a pair into a key-sorted association list. -/
def insertSorted {α : Type} (kv : String × α) : List (String × α) → List (String × α)
  | [] => [kv]
  | x :: xs => if leKey kv.1 x.1 then kv :: x :: xs else x :: insertSorted kv xs

/-- Sort an association list by key (the normalization `safe_dump` applies to
every mapping). -/
def sortByKey {α : Type} (l : List (String × α)) : List (String × α) :=
  l.foldr insertSorted []

/-- Serialize one dependency field line. -/
def serializeField (kv : String × String) : String :=
  "    " ++ kv.1 ++ ": " ++ kv.2

/-- Serialize one dependency mapping. -/
def serializeDep (d : Dep) : String :=
  String.intercalate "\x0a" (d.map serializeField)

/-- Serialize one top-level entry. -/
def serializeTop : String × TopVal → String
  | (k, .scalar s) => k ++ ": " ++ s
  | (k, .depList ds) =>
    k ++ ":" ++ String.intercalate "" (ds.map (fun d => "\x0a  -\x0a" ++ serializeDep d))

/-- Order-preserving serialization of a manifest document: the text whose
mapping keys appear in the document's own (insertion) order. -/
def serialize (m : Manifest) : String :=
  String.intercalate "\x0a" (m.map serializeTop) ++ "\x0a"

/-- Key-sort every mapping of the document (top level and each dependency),
preserving the order of the `dependencies` list itself. -/
def sortManifest (m : Manifest) : Manifest :=
  sortByKey (m.map (fun kv =>
    (kv.1,
      match kv.2 with
      | .scalar s => TopVal.scalar s
      | .depList ds => TopVal.depList (ds.map sortByKey))))

/-- Model of `yaml.safe_dump(chart_yaml, f)`: serialization of the document
with every mapping's keys sorted (`sort_keys=True` is the default). -/
def safeDump (m : Manifest) : String := serialize (sortManifest m)

/-! ## Filesystem and `clean_up` -/

/-- The filesystem state `clean_up` acts on: the current working directory
and the set of existing directories, both as absolute component paths. -/
structure FS where
  cwd : List String
  dirs : List (List String)
deriving DecidableEq, Repr

/-- The basename of the current directory
(source: `cwd.split("/")[-1]`). -/
def lastName (p : List String) : Option String := p.getLast?

/-- The first step of `clean_up`: if the basename of the current directory
is the repository name, `os.chdir(os.pardir)`. -/
def chdirStep (repoName : String) (fs : FS) : FS :=
  if lastName fs.cwd = some repoName then { fs with cwd := fs.cwd.dropLast } else fs

/-- `HelmUpgradeBot.clean_up`: after the conditional `chdir`, if `repo_name`
exists in the (possibly changed) current directory, `shutil.rmtree` it —
removing the directory and everything below it. -/
def clean_up (repoName : String) (fs : FS) : FS :=
  if (chdirStep repoName fs).cwd ++ [repoName] ∈ (chdirStep repoName fs).dirs then
    { chdirStep repoName fs with
      dirs := (chdirStep repoName fs).dirs.filter
        (fun d => !(((chdirStep repoName fs).cwd ++ [repoName]).isPrefixOf d)) }
  else chdirStep repoName fs

/-! ## The run: effects, environment, bot state

The side effects a run performs, recorded as a trace; the environment of
success flags for every external command and API call; and the bot state
threaded through the methods.  Every method returns the updated state paired
with `none` (normal return) or `some e` (a raised exception, carrying its
class name), so that the state at the moment an exception propagates is
observable. -/

/-- One externally visible action of a run. -/
inductive Effect where
  | checkForkApi
  | deleteForkApi
  | forkApi
  | cloneCmd
  | chdirRepo
  | branchesApi
  | pushDeleteCmd
  | branchDeleteCmd
  | pullCmd
  | checkoutCmd
  | updateChartFile
  | addCmd
  | commitCmd (msg : String)
  | pushCmd
  | prApi (title : String) (body : String)
  | cleanUpDir
  | logDryRun
  | logUpToDate
deriving DecidableEq, Repr

/-- Success flags of the external world: each field tells whether the
corresponding command or API call succeeds when the run reaches it. -/
structure Env where
  reposGetOk : Bool
  forkDeleteOk : Bool
  forkPostOk : Bool
  cloneOk : Bool
  branchesGetOk : Bool
  pushDeleteOk : Bool
  branchDeleteOk : Bool
  pullOk : Bool
  checkoutOk : Bool
  addOk : Bool
  commitOk : Bool
  pushOk : Bool
  prPostOk : Bool
deriving DecidableEq, Repr

/-- The bot's state after `__init__`: configuration fields, the `chart_info`
dict, the `fork_exists` belief together with the actual fork state on the
hosting service (`forkGH`), the filesystem, the fork's remote branches, the
local clone's branches, the manifest content of the fork's
`<chart_name>/requirements.yaml`, whether a pull request has been opened,
and the trace of effects so far. -/
structure Bot where
  repoOwner : String
  repoName : String
  branch : String
  deployment : String
  chartName : String
  dryRun : Bool
  chartInfo : List (String × ChartVal)
  token : String
  forkExists : Bool
  forkGH : Bool
  fs : FS
  remoteBranches : List String
  localBranches : List String
  manifest : Manifest
  prOpen : Bool
  trace : List Effect

/-- Record an effect on the trace. -/
def emit (b : Bot) (e : Effect) : Bot := { b with trace := b.trace ++ [e] }

/-- Invoke `clean_up` on the bot's filesystem (one cleanup run). -/
def run_clean_up (b : Bot) : Bot :=
  emit { b with fs := clean_up b.repoName b.fs } .cleanUpDir

/-- `HelmUpgradeBot.check_fork_exists`: list the bot account's repositories
and set `self.fork_exists` accordingly.  On a failed response the source
calls `self.clean_up(self.repo_name)` — but `clean_up` takes no argument, so
that call raises `TypeError` before any cleanup happens — hence the error
path raises without running cleanup. -/
def check_fork_exists (env : Env) (b0 : Bot) : Bot × Option String :=
  let b1 := emit b0 .checkForkApi
  if env.reposGetOk then ({ b1 with forkExists := b1.forkGH }, none)
  else (b1, some "TypeError")

/-- `HelmUpgradeBot.remove_fork`: check for a fork and delete it when
present. -/
def remove_fork (env : Env) (b0 : Bot) : Bot × Option String :=
  match check_fork_exists env b0 with
  | (b1, some e) => (b1, some e)
  | (b1, none) =>
    if b1.forkExists then
      let b2 := emit b1 .deleteForkApi
      if env.forkDeleteOk then ({ b2 with forkGH := false, forkExists := false }, none)
      else (b2, some "GitError")
    else (b1, none)

/-- The shared failure path of the git/API steps: `self.clean_up()` then
`self.remove_fork()` then `raise GitError(err_msg)` (an exception raised by
`remove_fork` itself would propagate instead). -/
def failPath (env : Env) (b0 : Bot) (msg : String) : Bot × Option String :=
  let b1 := run_clean_up b0
  match remove_fork env b1 with
  | (b2, some e) => (b2, some e)
  | (b2, none) => (b2, some msg)

/-- `HelmUpgradeBot.make_fork`: fork the repository via the API. -/
def make_fork (env : Env) (b0 : Bot) : Bot × Option String :=
  let b1 := emit b0 .forkApi
  if env.forkPostOk then ({ b1 with forkGH := true, forkExists := true }, none)
  else (b1, some "GitError")

/-- `HelmUpgradeBot.clone_fork`: `git clone` the fork into the current
directory; a fresh clone has the single local default branch `master`.  On
failure: cleanup, fork removal, `GitError`. -/
def clone_fork (env : Env) (b0 : Bot) : Bot × Option String :=
  let b1 := emit b0 .cloneCmd
  if env.cloneOk then
    ({ b1 with fs := { b1.fs with dirs := b1.fs.dirs ++ [b1.fs.cwd ++ [b1.repoName]] },
               localBranches := ["master"] }, none)
  else failPath env b1 "GitError"

/-- `HelmUpgradeBot.delete_old_branch`: list the fork's branches via the API;
when the working branch is among them, `git push --delete origin <branch>`
then `git branch -d <branch>`, each failure going through the shared failure
path.  A failed branch-list response raises `GitError` directly — without
cleanup (source lines 401-403). -/
def delete_old_branch (env : Env) (b0 : Bot) : Bot × Option String :=
  let b1 := emit b0 .branchesApi
  if env.branchesGetOk then
    if b1.branch ∈ b1.remoteBranches then
      let b2 := emit b1 .pushDeleteCmd
      if env.pushDeleteOk then
        let b3 := { b2 with remoteBranches := b2.remoteBranches.filter (fun n => n != b2.branch) }
        let b4 := emit b3 .branchDeleteCmd
        if env.branchDeleteOk then
          ({ b4 with localBranches := b4.localBranches.filter (fun n => n != b4.branch) }, none)
        else failPath env b4 "GitError"
      else failPath env b2 "GitError"
    else (b1, none)
  else (b1, some "GitError")

/-- The final block of `checkout_branch`: `git checkout -b <branch>`,
creating the local branch. -/
def do_checkout (env : Env) (b0 : Bot) : Bot × Option String :=
  let b1 := emit b0 .checkoutCmd
  if env.checkoutOk then ({ b1 with localBranches := b1.localBranches ++ [b1.branch] }, none)
  else failPath env b1 "GitError"

/-- `HelmUpgradeBot.checkout_branch`: when a fork exists, delete the stale
working branch and `git pull` the upstream default branch; then check out a
fresh working branch. -/
def checkout_branch (env : Env) (b0 : Bot) : Bot × Option String :=
  if b0.forkExists then
    match delete_old_branch env b0 with
    | (b1, some e) => (b1, some e)
    | (b1, none) =>
      let b2 := emit b1 .pullCmd
      if env.pullOk then do_checkout env b2
      else failPath env b2 "GitError"
  else do_checkout env b0

/-- The `update_local_chart` call inside `upgrade_chart`: patch the manifest
file in the clone.  An exception from the mutator propagates without
cleanup (the method has no error handler). -/
def update_chart_step (b0 : Bot) (chartsToUpdate : List String) : Bot × Option String :=
  let b1 := emit b0 .updateChartFile
  match update_local_chart b1.chartInfo b1.manifest chartsToUpdate with
  | .ok m => ({ b1 with manifest := m }, none)
  | .error e => (b1, some e)

/-- Python `repr` of a list of strings, as interpolated into the commit
message f-string. -/
def pyListRepr (xs : List String) : String :=
  "[" ++ String.intercalate ", " (xs.map (fun s => "\x27" ++ s ++ "\x27")) ++ "]"

/-- The commit message of `add_commit_push`. -/
def commitMsg (charts versions : List String) : String :=
  "Bump chart dependencies " ++ pyListRepr charts ++ " to versions "
    ++ pyListRepr versions ++ ", respectively"

/-- `HelmUpgradeBot.add_commit_push`: `git add`, `git commit -m <msg>`,
`git push`; each failure goes through the shared failure path; a successful
push creates (or updates) the working branch on the fork. -/
def add_commit_push (env : Env) (b0 : Bot) (chartsToUpdate : List String) : Bot × Option String :=
  let b1 := emit b0 .addCmd
  if env.addOk then
    match mapME (getVersion b1.chartInfo) chartsToUpdate with
    | .error e => (b1, some e)
    | .ok versions =>
      let b2 := emit b1 (.commitCmd (commitMsg chartsToUpdate versions))
      if env.commitOk then
        let b3 := emit b2 .pushCmd
        if env.pushOk then
          ({ b3 with remoteBranches :=
            if b3.branch ∈ b3.remoteBranches then b3.remoteBranches
            else b3.remoteBranches ++ [b3.branch] }, none)
        else failPath env b3 "GitError"
      else failPath env b2 "GitError"
  else failPath env b1 "GitError"

/-- The fixed pull-request title of `create_update_pr`. -/
def prTitle : String := "Logging Helm Chart version upgrade"

/-- `HelmUpgradeBot.make_pr_body`: a fixed body naming no chart and no
version. -/
def make_pr_body : String :=
  "This PR is updating the local Helm Chart to the most recent Chart dependency versions."

/-- `HelmUpgradeBot.create_update_pr`: open the pull request via the API. -/
def create_update_pr (env : Env) (b0 : Bot) : Bot × Option String :=
  let b1 := emit b0 (.prApi prTitle make_pr_body)
  if env.prPostOk then ({ b1 with prOpen := true }, none)
  else failPath env b1 "GitError"

/-- `HelmUpgradeBot.upgrade_chart`: fork (if the bot believes it has none),
clone; in a non-dry run, `os.chdir` into the clone, branch, patch, commit,
push, open the pull request; in every case that reaches the end, one
`clean_up`.  A dry run still forks and clones. -/
def upgrade_chart (env : Env) (b0 : Bot) (chartsToUpdate : List String) : Bot × Option String :=
  match (if !b0.forkExists then make_fork env b0 else (b0, none)) with
  | (b1, some e) => (b1, some e)
  | (b1, none) =>
    match clone_fork env b1 with
    | (b2, some e) => (b2, some e)
    | (b2, none) =>
      if !b2.dryRun then
        let b3 := emit { b2 with fs := { b2.fs with cwd := b2.fs.cwd ++ [b2.repoName] } } .chdirRepo
        match checkout_branch env b3 with
        | (b4, some e) => (b4, some e)
        | (b4, none) =>
          match update_chart_step b4 chartsToUpdate with
          | (b5, some e) => (b5, some e)
          | (b5, none) =>
            match add_commit_push env b5 chartsToUpdate with
            | (b6, some e) => (b6, some e)
            | (b6, none) =>
              match create_update_pr env b6 with
              | (b7, some e) => (b7, some e)
              | (b7, none) => (run_clean_up b7, none)
      else (run_clean_up b2, none)

/-- `HelmUpgradeBot.check_versions`: the entry point of a run after
`__init__`.  Builds the dependency chart list, logs the dry-run notice,
builds the `condition` list, and either calls `upgrade_chart` on the
compressed chart list or logs that the deployment is up to date. -/
def check_versions (env : Env) (b0 : Bot) : Bot × Option String :=
  match chartsOf ⟨b0.deployment, b0.chartInfo⟩ with
  | .error e => (b0, some e)
  | .ok charts =>
    let b1 := if b0.dryRun then emit b0 .logDryRun else b0
    match mapME (conditionFor ⟨b1.deployment, b1.chartInfo⟩) charts with
    | .error e => (b1, some e)
    | .ok conds =>
      if conds.any id then upgrade_chart env b1 (compress charts conds)
      else (emit b1 .logUpToDate, none)

/-- The upgrade set a run computes, as a function of the bot state (used to
state that it does not depend on the dry-run flag). -/
def upgradeSet (b : Bot) : Except String (List String) :=
  checkVersionsE ⟨b.deployment, b.chartInfo⟩

/-- Whether `needle` occurs as a contiguous substring of `hay` (on character
lists; used to state whether a title or body references a chart name). -/
def hasSubstr (hay needle : List Char) : Bool :=
  match hay with
  | [] => needle.isEmpty
  | _ :: t => needle.isPrefixOf hay || hasSubstr t needle

/-- Whether an effect is the pull-request API call. -/
def isPrEffect : Effect → Bool
  | .prApi _ _ => true
  | _ => false

/-- Whether an effect is a git commit. -/
def isCommitEffect : Effect → Bool
  | .commitCmd _ => true
  | _ => false

/-! ## Concrete fixtures

Concrete environments and bot states used by witnesses and
counterexamples. -/

/-- Environment where every external call succeeds. -/
def envOK : Env :=
  { reposGetOk := true, forkDeleteOk := true, forkPostOk := true, cloneOk := true,
    branchesGetOk := true, pushDeleteOk := true, branchDeleteOk := true, pullOk := true,
    checkoutOk := true, addOk := true, commitOk := true, pushOk := true, prPostOk := true }

/-- Environment where the branch-list API call of `delete_old_branch` fails
and everything else succeeds. -/
def envBranchesFail : Env := { envOK with branchesGetOk := false }

/-- A post-`__init__` bot state with one outdated dependency (`binderhub`
deployed at `0.1.0`, published `0.2.0`), no fork, and a base working
directory `/home`. -/
def botBase : Bot :=
  { repoOwner := "alan-turing-institute", repoName := "hub23-deploy",
    branch := "helm_chart_bump", deployment := "hub23", chartName := "hub23-chart",
    dryRun := false,
    chartInfo := [("hub23", .deps [("binderhub", "0.1.0")]), ("binderhub", .version "0.2.0")],
    token := "tok", forkExists := false, forkGH := false,
    fs := { cwd := ["home"], dirs := [["home"]] },
    remoteBranches := [], localBranches := [],
    manifest := [("dependencies", .depList [[("name", "binderhub"), ("version", "0.1.0")]])],
    prOpen := false, trace := [] }

/-- The base bot in dry-run mode. -/
def botDry : Bot := { botBase with dryRun := true }

/-- The base bot with an existing fork that carries a stale working
branch. -/
def botStale : Bot :=
  { botBase with
    forkExists := true, forkGH := true,
    remoteBranches := ["helm_chart_bump"], localBranches := ["master"] }

/-- Chart info for the manifest counterexamples: one published chart. -/
def ciC6 : List (String × ChartVal) := [("dep1", .version "0.2.0")]

/-- A manifest whose top-level keys are not in sorted order
(`dependencies` precedes `apiVersion`). -/
def mC6 : Manifest :=
  [("dependencies", .depList [[("name", "dep1"), ("version", "0.1.0")]]),
   ("apiVersion", .scalar "v1")]

/-- The manifest `mC6` after bumping `dep1` to `0.2.0`. -/
def mC6' : Manifest :=
  [("dependencies", .depList [[("name", "dep1"), ("version", "0.2.0")]]),
   ("apiVersion", .scalar "v1")]

/-- Chart info naming a chart with no dependency entry in `mC7`. -/
def ciC7 : List (String × ChartVal) := [("other", .version "9.9.9")]

/-- A manifest whose only dependency is `dep1`. -/
def mC7 : Manifest :=
  [("dependencies", .depList [[("name", "dep1"), ("version", "0.1.0")]])]

/-- The scenario of the specification: `chartA` outdated, `chartB` up to
date. -/
def botScenario : Bot :=
  { botBase with
    chartInfo := [("hub23", .deps [("chartA", "1.0.0"), ("chartB", "2.0.0")]),
                  ("chartA", .version "1.1.0"), ("chartB", .version "2.0.0")],
    manifest := [("dependencies", .depList
      [[("name", "chartA"), ("version", "1.0.0")],
       [("name", "chartB"), ("version", "2.0.0")]])] }

/-! ## Helper lemmas -/

theorem dictGet_mem {α : Type} {m : List (String × α)} {k : String}
    (h : k ∈ m.map Prod.fst) : ∃ v, dictGet m k = some v ∧ (k, v) ∈ m := by
  induction m with
  | nil => simp at h
  | cons kv rest ih =>
    rcases kv with ⟨k₀, v₀⟩
    by_cases hk : k₀ = k
    · subst hk
      exact ⟨v₀, by simp [dictGet], by simp⟩
    · have h' : k ∈ rest.map Prod.fst := by
        rcases List.mem_map.mp h with ⟨p, hp, hfst⟩
        rcases List.mem_cons.mp hp with hp | hp
        · exact absurd (by rw [hp] at hfst; exact hfst) hk
        · exact List.mem_map.mpr ⟨p, hp, hfst⟩
      rcases ih h' with ⟨v, hv, hmem⟩
      exact ⟨v, by simp [dictGet, hk, hv], List.mem_cons_of_mem _ hmem⟩

theorem mem_of_dictGet {α : Type} {m : List (String × α)} {k : String} {v : α}
    (h : dictGet m k = some v) : k ∈ m.map Prod.fst := by
  induction m with
  | nil => simp [dictGet] at h
  | cons kv rest ih =>
    by_cases hk : kv.1 = k
    · exact List.mem_map.mpr ⟨kv, by simp, hk⟩
    · simp only [dictGet, if_neg hk] at h
      simpa using Or.inr (ih h)

theorem mem_of_mem_removeFirst {xs : List String} {x y : String}
    (h : y ∈ removeFirst xs x) : y ∈ xs := by
  induction xs with
  | nil => simp [removeFirst] at h
  | cons z zs ih =>
    by_cases hz : z = x
    · simp only [removeFirst, if_pos hz] at h
      exact List.mem_cons_of_mem _ h
    · simp only [removeFirst, if_neg hz] at h
      rcases List.mem_cons.mp h with h | h
      · simp [h]
      · exact List.mem_cons_of_mem _ (ih h)

theorem not_mem_removeFirst_self {xs : List String} {x : String}
    (hnd : xs.Nodup) : x ∉ removeFirst xs x := by
  induction xs with
  | nil => simp [removeFirst]
  | cons z zs ih =>
    rcases List.nodup_cons.mp hnd with ⟨hz, hzs⟩
    by_cases hzx : z = x
    · subst hzx
      simpa [removeFirst] using hz
    · simp only [removeFirst, if_neg hzx, List.mem_cons, not_or]
      exact ⟨fun hh => hzx hh.symm, ih hzs⟩

theorem ne_of_mem_removeFirst {xs : List String} {x y : String}
    (hnd : xs.Nodup) (h : y ∈ removeFirst xs x) : y ≠ x := by
  intro hEq
  exact not_mem_removeFirst_self hnd (hEq ▸ h)

theorem mapME_ok_of_forall {α β : Type} {f : α → Except String β} {g : α → β}
    {xs : List α} (h : ∀ x ∈ xs, f x = .ok (g x)) :
    mapME f xs = .ok (xs.map g) := by
  induction xs with
  | nil => rfl
  | cons x xs ih =>
    have hx := h x (List.mem_cons_self x xs)
    have ih' := ih (fun y hy => h y (List.mem_cons_of_mem _ hy))
    simp [mapME, hx, ih']

theorem mapME_error_of_mem {α β : Type} {f : α → Except String β} {g : α → β}
    {xs : List α} (hall : ∀ x ∈ xs, f x = .ok (g x) ∨ f x = .error "KeyError")
    (hex : ∃ x ∈ xs, f x = .error "KeyError") :
    mapME f xs = .error "KeyError" := by
  induction xs with
  | nil => simp at hex
  | cons x xs ih =>
    rcases hall x (List.mem_cons_self x xs) with hx | hx
    · rcases hex with ⟨y, hy, hyerr⟩
      rcases List.mem_cons.mp hy with rfl | hy
      · rw [hx] at hyerr; cases hyerr
      · have := ih (fun z hz => hall z (List.mem_cons_of_mem _ hz)) ⟨y, hy, hyerr⟩
        simp [mapME, hx, this]
    · simp [mapME, hx]

theorem compress_map (xs : List String) (f : String → Bool) :
    compress xs (xs.map f) = xs.filter f := by
  induction xs with
  | nil => rfl
  | cons x xs ih =>
    by_cases hx : f x
    · simp [compress, List.filter, hx, ih]
    · simp only [List.map_cons, compress, Bool.not_eq_true] at *
      simp [hx, ih, List.filter]

theorem any_false_of_forall {xs : List String} {f : String → Bool}
    (h : ∀ x ∈ xs, f x = false) : (xs.map f).any id = false := by
  induction xs with
  | nil => rfl
  | cons x xs ih =>
    simp only [List.map_cons, List.any_cons, id, h x (List.mem_cons_self x xs),
      Bool.false_or]
    exact ih (fun y hy => h y (List.mem_cons_of_mem _ hy))

/-! ## Claim theorems -/

/-- Precondition of the comparator claims: the deployment entry of
`chart_info` holds the nested deployed-version dict `dm`, every other entry
is a `{"version": v}` record, and the keys are distinct (as the keys of a
Python dict are). -/
structure ComparatorWF (d : String) (ci : List (String × ChartVal))
    (dm : List (String × String)) : Prop where
  nodupKeys : (ci.map Prod.fst).Nodup
  depEntry : dictGet ci d = some (ChartVal.deps dm)
  pubEntries : ∀ p ∈ ci, p.1 ≠ d → isVersion p.2 = true

theorem conditionFor_ok {d : String} {ci : List (String × ChartVal)}
    {dm : List (String × String)} (hwf : ComparatorWF d ci dm)
    {c : String} (hc : c ∈ removeFirst (ci.map Prod.fst) d)
    (hin : (dictGet dm c).isSome) :
    conditionFor ⟨d, ci⟩ c = .ok (pubVersionD ci c != depVersionD ci d c) := by
  have hcd : c ≠ d := ne_of_mem_removeFirst hwf.nodupKeys hc
  rcases dictGet_mem (mem_of_mem_removeFirst hc) with ⟨val, hval, hmem⟩
  have hver := hwf.pubEntries (c, val) hmem hcd
  cases val with
  | deps _ => simp [isVersion] at hver
  | version v =>
    rcases Option.isSome_iff_exists.mp hin with ⟨w, hw⟩
    simp [conditionFor, getVersion, deployedVersion, hval, hwf.depEntry, hw,
      pubVersionD, depVersionD]

/-- C1: for a well-formed `chart_info` in which every dependency chart also
appears in the deployment's own dependency mapping, the comparator returns
exactly the chart names (deployment excluded, in the dict's insertion order)
whose published version string differs from the deployed one under exact
string inequality; and when every such pair is equal, `check_versions` only
logs — it performs no fork, clone, branch, commit, push, pull-request or
cleanup operation, and raises nothing. -/
theorem check_versions_exact_diff (d : String) (ci : List (String × ChartVal))
    (dm : List (String × String)) (hwf : ComparatorWF d ci dm)
    (hin : ∀ c ∈ removeFirst (ci.map Prod.fst) d, (dictGet dm c).isSome) :
    checkVersionsE ⟨d, ci⟩ =
      .ok ((removeFirst (ci.map Prod.fst) d).filter
        (fun c => pubVersionD ci c != depVersionD ci d c)) ∧
    (∀ env b, b.deployment = d → b.chartInfo = ci →
      (∀ c ∈ removeFirst (ci.map Prod.fst) d, pubVersionD ci c = depVersionD ci d c) →
      check_versions env b =
        (emit (if b.dryRun then emit b .logDryRun else b) .logUpToDate, none)) := by
  have hmemd : d ∈ ci.map Prod.fst := mem_of_dictGet hwf.depEntry
  have hcharts : chartsOf ⟨d, ci⟩ = .ok (removeFirst (ci.map Prod.fst) d) := by
    simp [chartsOf, hmemd]
  have hmap : mapME (conditionFor ⟨d, ci⟩) (removeFirst (ci.map Prod.fst) d) =
      .ok ((removeFirst (ci.map Prod.fst) d).map
        (fun c => pubVersionD ci c != depVersionD ci d c)) :=
    mapME_ok_of_forall (fun c hc => conditionFor_ok hwf hc (hin c hc))
  constructor
  · simp [checkVersionsE, hcharts, hmap, compress_map]
  · intro env b hd hci heq
    have hany : ((removeFirst (ci.map Prod.fst) d).map
        (fun c => pubVersionD ci c != depVersionD ci d c)).any id = false := by
      apply any_false_of_forall
      intro c hc
      simp [heq c hc]
    cases hdr : b.dryRun
    · simp [check_versions, hd, hci, hcharts, hdr, hmap, hany]
    · simp [check_versions, emit, hd, hci, hcharts, hdr, hmap, hany]

/-- Witness for C1: a concrete `chart_info` with one outdated dependency. -/
theorem check_versions_exact_diff_witness :
    checkVersionsE ⟨"hub23", botBase.chartInfo⟩ =
      .ok ((removeFirst (botBase.chartInfo.map Prod.fst) "hub23").filter
        (fun c => pubVersionD botBase.chartInfo c !=
          depVersionD botBase.chartInfo "hub23" c)) :=
  (check_versions_exact_diff "hub23" botBase.chartInfo [("binderhub", "0.1.0")]
    ⟨by decide, by decide, by decide⟩ (by decide)).1

theorem conditionFor_error {d : String} {ci : List (String × ChartVal)}
    {dm : List (String × String)} (hwf : ComparatorWF d ci dm)
    {c : String} (hc : c ∈ removeFirst (ci.map Prod.fst) d)
    (hs : dictGet dm c = none) :
    conditionFor ⟨d, ci⟩ c = .error "KeyError" := by
  have hcd : c ≠ d := ne_of_mem_removeFirst hwf.nodupKeys hc
  rcases dictGet_mem (mem_of_mem_removeFirst hc) with ⟨val, hval, hmem⟩
  have hver := hwf.pubEntries (c, val) hmem hcd
  cases val with
  | deps _ => simp [isVersion] at hver
  | version v =>
    simp [conditionFor, getVersion, deployedVersion, hval, hwf.depEntry, hs]

/-- C9: under the same well-formedness, the comparator returns normally if
and only if every dependency chart name appears in the deployment's deployed
mapping; when some name is absent, the run raises the key-lookup error
instead of skipping the chart. -/
theorem check_versions_keyerror (d : String) (ci : List (String × ChartVal))
    (dm : List (String × String)) (hwf : ComparatorWF d ci dm) :
    (isOkE (checkVersionsE ⟨d, ci⟩) = true ↔
      ∀ c ∈ removeFirst (ci.map Prod.fst) d, (dictGet dm c).isSome) ∧
    ((¬ ∀ c ∈ removeFirst (ci.map Prod.fst) d, (dictGet dm c).isSome) →
      checkVersionsE ⟨d, ci⟩ = .error "KeyError") := by
  have hmemd : d ∈ ci.map Prod.fst := mem_of_dictGet hwf.depEntry
  have hcharts : chartsOf ⟨d, ci⟩ = .ok (removeFirst (ci.map Prod.fst) d) := by
    simp [chartsOf, hmemd]
  have herr : (¬ ∀ c ∈ removeFirst (ci.map Prod.fst) d, (dictGet dm c).isSome) →
      checkVersionsE ⟨d, ci⟩ = .error "KeyError" := by
    intro hnot
    push_neg at hnot
    rcases hnot with ⟨c, hc, hcs⟩
    have hnone : dictGet dm c = none := by
      cases h : dictGet dm c
      · rfl
      · rw [h] at hcs; simp at hcs
    have hall : ∀ x ∈ removeFirst (ci.map Prod.fst) d,
        conditionFor ⟨d, ci⟩ x = .ok (pubVersionD ci x != depVersionD ci d x) ∨
        conditionFor ⟨d, ci⟩ x = .error "KeyError" := by
      intro x hx
      by_cases hs : (dictGet dm x).isSome
      · exact Or.inl (conditionFor_ok hwf hx hs)
      · exact Or.inr (conditionFor_error hwf hx (Option.not_isSome_iff_eq_none.mp hs))
    have hmap := mapME_error_of_mem hall ⟨c, hc, conditionFor_error hwf hc hnone⟩
    simp [checkVersionsE, hcharts, hmap]
  constructor
  · constructor
    · intro hok
      by_contra hnot
      rw [herr hnot] at hok
      simp [isOkE] at hok
    · intro hin
      have hmap := mapME_ok_of_forall (fun c hc => conditionFor_ok hwf hc (hin c hc))
      simp [checkVersionsE, hcharts, hmap, isOkE]
  · exact herr

/-- Witness for C9: with `binderhub` absent from the deployment's deployed
mapping, the comparator raises `KeyError`; restoring it makes the comparator
total. -/
theorem check_versions_keyerror_witness :
    checkVersionsE ⟨"hub23", [("hub23", .deps []), ("binderhub", .version "0.2.0")]⟩ =
      .error "KeyError" :=
  (check_versions_keyerror "hub23"
    [("hub23", .deps []), ("binderhub", .version "0.2.0")] []
    ⟨by decide, by decide, by decide⟩).2 (by decide)

/-- C3: when the configured working branch already exists in the bot's fork
(and the bot knows it has a fork), `checkout_branch` deletes the branch
remotely and locally — in that order, before the fresh checkout, as the
trace shows — and afterwards the fork carries no branch of that name while
the clone carries exactly one. -/
theorem checkout_branch_fresh (env : Env) (b : Bot)
    (hf : b.forkExists = true) (hb : b.branch ∈ b.remoteBranches)
    (h1 : env.branchesGetOk = true) (h2 : env.pushDeleteOk = true)
    (h3 : env.branchDeleteOk = true) (h4 : env.pullOk = true)
    (h5 : env.checkoutOk = true) :
    (checkout_branch env b).2 = none ∧
    (checkout_branch env b).1.remoteBranches =
      b.remoteBranches.filter (fun n => n != b.branch) ∧
    (checkout_branch env b).1.localBranches =
      b.localBranches.filter (fun n => n != b.branch) ++ [b.branch] ∧
    (checkout_branch env b).1.trace = b.trace ++
      [.branchesApi, .pushDeleteCmd, .branchDeleteCmd, .pullCmd, .checkoutCmd] ∧
    (checkout_branch env b).1.remoteBranches.count b.branch = 0 ∧
    (checkout_branch env b).1.localBranches.count b.branch = 1 := by
  have hcb : checkout_branch env b =
      ({ b with
          remoteBranches := b.remoteBranches.filter (fun n => n != b.branch),
          localBranches := b.localBranches.filter (fun n => n != b.branch) ++ [b.branch],
          trace := b.trace ++
            [.branchesApi, .pushDeleteCmd, .branchDeleteCmd, .pullCmd, .checkoutCmd] },
        none) := by
    simp [checkout_branch, delete_old_branch, do_checkout, emit, hf, hb, h1, h2, h3, h4, h5]
  have hcount0 : ∀ l : List String,
      (l.filter (fun n => n != b.branch)).count b.branch = 0 := by
    intro l
    refine List.count_eq_zero.mpr ?_
    intro hmem
    have := List.of_mem_filter hmem
    simp at this
  rw [hcb]
  refine ⟨rfl, rfl, rfl, rfl, hcount0 _, ?_⟩
  simp [List.count_append, hcount0]

/-- Witness for C3: a concrete fork carrying a stale `helm_chart_bump`
branch. -/
theorem checkout_branch_fresh_witness :
    (checkout_branch envOK botStale).1.localBranches.count "helm_chart_bump" = 1 :=
  (checkout_branch_fresh envOK botStale
    rfl (by decide) rfl rfl rfl rfl rfl).2.2.2.2.2

/-- C2 is violated by the source: when the branch-list request of
`delete_old_branch` fails, the run raises `GitError` with the clone still on
disk and without ever invoking `clean_up` (source lines 401-403 raise
directly, unlike every sibling failure path). -/
theorem branch_list_failure_leaves_clone :
    (check_versions envBranchesFail botBase).2 = some "GitError" ∧
    ["home", "hub23-deploy"] ∈ (check_versions envBranchesFail botBase).1.fs.dirs ∧
    Effect.cleanUpDir ∉ (check_versions envBranchesFail botBase).1.trace := by
  decide

/-- Counterexample for C10: with the clone's parent directory itself named
like the repository (`/r/r` inside `/r`), a second `clean_up` deletes the
parent as well, so running it twice does not equal running it once. -/
theorem clean_up_not_idempotent :
    clean_up "r" (clean_up "r" { cwd := ["r", "r"], dirs := [["r"], ["r", "r"]] }) ≠
      clean_up "r" { cwd := ["r", "r"], dirs := [["r"], ["r", "r"]] } := by
  decide

theorem clean_up_cwd (r : String) (fs : FS) :
    (clean_up r fs).cwd = (chdirStep r fs).cwd := by
  unfold clean_up
  split <;> rfl

theorem isPrefixOf_self (l : List String) : l.isPrefixOf l = true := by
  induction l with
  | nil => rfl
  | cons x xs ih => simp [List.isPrefixOf, ih]

theorem clean_up_clone_absent (r : String) (fs : FS) :
    (clean_up r fs).cwd ++ [r] ∉ (clean_up r fs).dirs := by
  unfold clean_up
  by_cases hmem : (chdirStep r fs).cwd ++ [r] ∈ (chdirStep r fs).dirs
  · simp only [if_pos hmem]
    intro hcon
    have hp := List.of_mem_filter hcon
    simp [isPrefixOf_self] at hp
  · simp only [if_neg hmem]
    exact hmem

theorem clean_up_noop (r : String) (g : FS) (h1 : lastName g.cwd ≠ some r)
    (h2 : g.cwd ++ [r] ∉ g.dirs) : clean_up r g = g := by
  have hstep : chdirStep r g = g := by simp [chdirStep, h1]
  simp [clean_up, hstep, h2]

/-- C10 amended: `clean_up` is a no-op when the clone directory is absent
and the current directory is not itself named like the repository; when the
current directory is the clone it first changes to the parent directory;
and a second run changes nothing provided the directory the first run ends
in is not also named like the repository (the counterexample's nesting). -/
theorem clean_up_props (r : String) (fs : FS) :
    (lastName fs.cwd ≠ some r → fs.cwd ++ [r] ∉ fs.dirs → clean_up r fs = fs) ∧
    (lastName fs.cwd = some r → (clean_up r fs).cwd = fs.cwd.dropLast) ∧
    (lastName (clean_up r fs).cwd ≠ some r →
      clean_up r (clean_up r fs) = clean_up r fs) := by
  refine ⟨?_, ?_, ?_⟩
  · intro h1 h2
    exact clean_up_noop r fs h1 h2
  · intro h1
    rw [clean_up_cwd]
    simp [chdirStep, h1]
  · intro h1
    exact clean_up_noop r (clean_up r fs) h1 (clean_up_clone_absent r fs)

/-- Witness for C10's amended claim: a concrete filesystem where a second
`clean_up` is a no-op. -/
theorem clean_up_props_witness :
    clean_up "hub23-deploy"
        (clean_up "hub23-deploy"
          { cwd := ["home", "hub23-deploy"], dirs := [["home"], ["home", "hub23-deploy"]] }) =
      clean_up "hub23-deploy"
        { cwd := ["home", "hub23-deploy"], dirs := [["home"], ["home", "hub23-deploy"]] } :=
  (clean_up_props "hub23-deploy"
    { cwd := ["home", "hub23-deploy"], dirs := [["home"], ["home", "hub23-deploy"]] }).2.2
    (by decide)

theorem failPath_some (env : Env) (b : Bot) (msg : String) :
    (failPath env b msg).2.isSome = true := by
  unfold failPath
  rcases h : remove_fork env (run_clean_up b) with ⟨b2, e⟩
  cases e <;> simp [h]

/-- The fully successful non-dry path of `upgrade_chart`, starting with no
fork and no stale remote branch: the exact sequence of effects, the opened
pull request, and the retained fork. -/
theorem upgrade_chart_ok (env : Env) (b : Bot) (cs vs : List String) (m : Manifest)
    (hd : b.dryRun = false) (hf : b.forkExists = false)
    (hb : b.branch ∉ b.remoteBranches)
    (h3 : env.forkPostOk = true) (h4 : env.cloneOk = true)
    (h5 : env.branchesGetOk = true) (h6 : env.pullOk = true)
    (h7 : env.checkoutOk = true) (h8 : env.addOk = true)
    (h9 : env.commitOk = true) (h10 : env.pushOk = true)
    (h11 : env.prPostOk = true)
    (hu : update_local_chart b.chartInfo b.manifest cs = .ok m)
    (hv : mapME (getVersion b.chartInfo) cs = .ok vs) :
    (upgrade_chart env b cs).2 = none ∧
    (upgrade_chart env b cs).1.forkGH = true ∧
    (upgrade_chart env b cs).1.prOpen = true ∧
    (upgrade_chart env b cs).1.trace = b.trace ++
      [.forkApi, .cloneCmd, .chdirRepo, .branchesApi, .pullCmd, .checkoutCmd,
       .updateChartFile, .addCmd, .commitCmd (commitMsg cs vs), .pushCmd,
       .prApi prTitle make_pr_body, .cleanUpDir] := by
  simp [upgrade_chart, make_fork, clone_fork, checkout_branch, delete_old_branch,
    do_checkout, update_chart_step, add_commit_push, create_update_pr, run_clean_up,
    emit, hd, hf, hb, h3, h4, h5, h6, h7, h8, h9, h10, h11, hu, hv]

/-- Counterexample for C4: a dry run with an available upgrade ends without
error, with the bot's fork still existing on the hosting service and no pull
request opened — the fork is not torn down. -/
theorem dry_run_leaves_fork :
    (check_versions envOK botDry).2 = none ∧
    (check_versions envOK botDry).1.forkGH = true ∧
    (check_versions envOK botDry).1.prOpen = false := by
  decide

/-- C4 amended: the shared failure handler of the clone, branch-deletion,
pull, checkout, add, commit, push and publish steps removes the fork before
the error propagates (provided the fork-listing and fork-deletion API calls
succeed); a dry run with upgrades creates a fork, uses it for the clone, and
leaves it behind without opening a pull request; and a successful non-dry
upgrade leaves the fork with the pull request opened from it. -/
theorem fork_lifecycle (env : Env) (b : Bot) :
    (∀ msg, env.reposGetOk = true → env.forkDeleteOk = true →
      (failPath env b msg).1.forkGH = false ∧ (failPath env b msg).2 = some msg) ∧
    (∀ cs, b.dryRun = true → b.forkExists = false →
      env.forkPostOk = true → env.cloneOk = true →
      (upgrade_chart env b cs).2 = none ∧
      (upgrade_chart env b cs).1.forkGH = true ∧
      (upgrade_chart env b cs).1.prOpen = b.prOpen) ∧
    (∀ cs vs m, b.dryRun = false → b.forkExists = false →
      b.branch ∉ b.remoteBranches →
      env.forkPostOk = true → env.cloneOk = true → env.branchesGetOk = true →
      env.pullOk = true → env.checkoutOk = true → env.addOk = true →
      env.commitOk = true → env.pushOk = true → env.prPostOk = true →
      update_local_chart b.chartInfo b.manifest cs = .ok m →
      mapME (getVersion b.chartInfo) cs = .ok vs →
      (upgrade_chart env b cs).2 = none ∧
      (upgrade_chart env b cs).1.forkGH = true ∧
      (upgrade_chart env b cs).1.prOpen = true) := by
  refine ⟨?_, ?_, ?_⟩
  · intro msg h1 h2
    cases hgh : (run_clean_up b).forkGH
    · simp [failPath, remove_fork, check_fork_exists, emit, h1, h2, run_clean_up] at hgh ⊢
      simp [hgh]
    · simp [failPath, remove_fork, check_fork_exists, emit, h1, h2, run_clean_up] at hgh ⊢
      simp [hgh]
  · intro cs hd hf h3 h4
    simp [upgrade_chart, make_fork, clone_fork, run_clean_up, emit, hd, hf, h3, h4]
  · intro cs vs m hd hf hb h3 h4 h5 h6 h7 h8 h9 h10 h11 hu hv
    have h := upgrade_chart_ok env b cs vs m hd hf hb h3 h4 h5 h6 h7 h8 h9 h10 h11 hu hv
    exact ⟨h.1, h.2.1, h.2.2.1⟩

/-- Witness for C4's amended claim: the concrete dry run keeps its fork and
the concrete failure handler reports the raised message. -/
theorem fork_lifecycle_witness :
    (upgrade_chart envOK botDry ["binderhub"]).1.forkGH = true :=
  ((fork_lifecycle envOK botDry).2.1 ["binderhub"] rfl rfl rfl rfl).2.1

/-- Counterexample for C5: in a dry run with an available upgrade the fork
API call and the clone command are still issued — fork creation and cloning
are not suppressed. -/
theorem dry_run_still_forks :
    (check_versions envOK botDry).2 = none ∧
    Effect.forkApi ∈ (check_versions envOK botDry).1.trace ∧
    Effect.cloneCmd ∈ (check_versions envOK botDry).1.trace := by
  decide

/-- C5 amended: the upgrade set a run computes does not depend on the
dry-run flag; a dry run suppresses the branch, manifest, commit, push and
pull-request steps, but still creates a fork (when the bot has none), still
clones it, and then cleans the clone up — its exact effects are the fork
API call, the clone command, and one cleanup. -/
theorem dry_run_suppression (env : Env) (b : Bot) :
    upgradeSet { b with dryRun := true } = upgradeSet b ∧
    (∀ cs, b.dryRun = true → b.forkExists = false →
      env.forkPostOk = true → env.cloneOk = true →
      (upgrade_chart env b cs).2 = none ∧
      (upgrade_chart env b cs).1.trace =
        b.trace ++ [.forkApi, .cloneCmd, .cleanUpDir]) := by
  refine ⟨rfl, ?_⟩
  intro cs hd hf h3 h4
  simp [upgrade_chart, make_fork, clone_fork, run_clean_up, emit, hd, hf, h3, h4]

/-- Witness for C5's amended claim: the concrete dry run emits exactly the
fork call, the clone, and the cleanup. -/
theorem dry_run_suppression_witness :
    (upgrade_chart envOK botDry ["binderhub"]).1.trace =
      botDry.trace ++ [.forkApi, .cloneCmd, .cleanUpDir] :=
  ((dry_run_suppression envOK botDry).2 ["binderhub"] rfl rfl rfl rfl).2

/-- Counterexample for C8: in the specification's own scenario (only
`chartA` outdated) the run opens exactly one pull request, but its title and
body are the fixed strings — the title does not reference `chartA` and the
body names neither the chart nor the new version. -/
theorem pr_title_fixed :
    (check_versions envOK botScenario).2 = none ∧
    (check_versions envOK botScenario).1.trace.filter isPrEffect =
      [Effect.prApi prTitle make_pr_body] ∧
    hasSubstr prTitle.toList "chartA".toList = false ∧
    hasSubstr make_pr_body.toList "chartA".toList = false ∧
    hasSubstr make_pr_body.toList "1.1.0".toList = false := by
  decide

/-- C8 amended: a fully successful non-dry upgrade performs exactly one
commit and opens exactly one pull request; the commit message — not the
pull request — names the bumped charts and their new versions, while the
pull request carries the fixed title and the fixed body. -/
theorem one_pr_fixed_text (env : Env) (b : Bot) (cs vs : List String) (m : Manifest)
    (ht : b.trace = [])
    (hd : b.dryRun = false) (hf : b.forkExists = false)
    (hb : b.branch ∉ b.remoteBranches)
    (h3 : env.forkPostOk = true) (h4 : env.cloneOk = true)
    (h5 : env.branchesGetOk = true) (h6 : env.pullOk = true)
    (h7 : env.checkoutOk = true) (h8 : env.addOk = true)
    (h9 : env.commitOk = true) (h10 : env.pushOk = true)
    (h11 : env.prPostOk = true)
    (hu : update_local_chart b.chartInfo b.manifest cs = .ok m)
    (hv : mapME (getVersion b.chartInfo) cs = .ok vs) :
    (upgrade_chart env b cs).2 = none ∧
    (upgrade_chart env b cs).1.trace.filter isPrEffect =
      [Effect.prApi prTitle make_pr_body] ∧
    (upgrade_chart env b cs).1.trace.filter isCommitEffect =
      [Effect.commitCmd (commitMsg cs vs)] ∧
    (upgrade_chart env b cs).1.prOpen = true := by
  have h := upgrade_chart_ok env b cs vs m hd hf hb h3 h4 h5 h6 h7 h8 h9 h10 h11 hu hv
  refine ⟨h.1, ?_, ?_, h.2.2.1⟩ <;>
    simp [h.2.2.2, ht, isPrEffect, isCommitEffect]

/-- Witness for C8's amended claim: the specification's scenario produces
the single fixed-text pull request and the single commit naming `chartA`
and `1.1.0`. -/
theorem one_pr_fixed_text_witness :
    (upgrade_chart envOK botScenario ["chartA"]).1.trace.filter isCommitEffect =
      [Effect.commitCmd (commitMsg ["chartA"] ["1.1.0"])] :=
  (one_pr_fixed_text envOK botScenario ["chartA"] ["1.1.0"]
    [("dependencies", .depList
      [[("name", "chartA"), ("version", "1.1.0")],
       [("name", "chartB"), ("version", "2.0.0")]])]
    rfl rfl rfl (by decide) rfl rfl rfl rfl rfl rfl rfl rfl rfl rfl rfl).2.2.1

/-! ## Manifest mutator lemmas (C6 and C7) -/

theorem dictGet_map_version {v k : String} (hk : k ≠ "version") (d : Dep) :
    dictGet (d.map (fun kv => if kv.1 = "version" then ("version", v) else kv)) k =
      dictGet d k := by
  have hk2 : ("version" : String) ≠ k := fun hc => hk hc.symm
  induction d with
  | nil => rfl
  | cons kv rest ih =>
    rcases kv with ⟨k1, v1⟩
    by_cases h : k1 = "version"
    · subst h
      simp [dictGet, hk2, ih]
    · have hcond : ¬ (((k1, v1) : String × String).1 = "version") := h
      simp only [List.map_cons]
      rw [if_neg hcond]
      by_cases hkk : k1 = k
      · simp [dictGet, hkk]
      · simp [dictGet, hkk, ih]

theorem dictGet_append_version {v k : String} (hk : k ≠ "version") (d : Dep) :
    dictGet (d ++ [("version", v)]) k = dictGet d k := by
  have hk2 : ("version" : String) ≠ k := fun hc => hk hc.symm
  induction d with
  | nil => simp [dictGet, hk2]
  | cons kv rest ih =>
    by_cases hkk : kv.1 = k
    · simp [dictGet, hkk]
    · simp [dictGet, hkk, ih]

theorem setField_get_ne (d : Dep) (v : String) {k : String} (hk : k ≠ "version") :
    dictGet (setField d "version" v) k = dictGet d k := by
  unfold setField
  split
  · exact dictGet_map_version hk d
  · exact dictGet_append_version hk d

theorem setField_filter_ne (v : String) :
    ∀ (d : Dep),
      (setField d "version" v).filter (fun kv => kv.1 != "version") =
        d.filter (fun kv => kv.1 != "version") := by
  have hmap : ∀ (d : Dep),
      (d.map (fun kv => if kv.1 = "version" then ("version", v) else kv)).filter
          (fun kv => kv.1 != "version") =
        d.filter (fun kv => kv.1 != "version") := by
    intro d
    induction d with
    | nil => rfl
    | cons kv rest ih =>
      by_cases h : kv.1 = "version"
      · simp [List.filter, h, ih]
      · simp [List.filter, h, ih]
  intro d
  unfold setField
  split
  · exact hmap d
  · simp [List.filter_append, List.filter]

theorem patchDep_frame {ci : List (String × ChartVal)} {c : String} {d d' : Dep}
    (h : patchDep ci c d = .ok d') : DepFrameOne c d d' := by
  unfold patchDep at h
  rcases hn : dictGet d "name" with _ | n
  · simp [hn] at h
  · by_cases hc : n = c
    · rcases hv : getVersion ci c with e | v
      · simp [hn, hc, hv] at h
      · simp [hn, hc, hv] at h
        subst h
        refine ⟨setField_get_ne d v (by decide), setField_filter_ne v d, ?_⟩
        intro n2 hn2 hne
        rw [hn] at hn2
        cases hn2
        exact absurd hc hne
    · simp [hn, hc] at h
      subst h
      exact ⟨rfl, rfl, fun _ _ _ => rfl⟩

theorem mapME_patch_frame {ci : List (String × ChartVal)} {c : String} :
    ∀ {ds ds' : List Dep}, mapME (patchDep ci c) ds = .ok ds' →
      List.Forall₂ (DepFrameOne c) ds ds' := by
  intro ds
  induction ds with
  | nil =>
    intro ds' h
    simp only [mapME] at h
    cases h
    exact List.Forall₂.nil
  | cons d rest ih =>
    intro ds' h
    rcases hpd : patchDep ci c d with e | d₁
    · simp [mapME, hpd] at h
    · rcases hrest : mapME (patchDep ci c) rest with e | rest₁
      · simp [mapME, hpd, hrest] at h
      · simp [mapME, hpd, hrest] at h
        subst h
        exact List.Forall₂.cons (patchDep_frame hpd) (ih hrest)

theorem depFrame_comp {c : String} {cs : List String} :
    ∀ {ds ds₁ ds' : List Dep},
      List.Forall₂ (DepFrameOne c) ds ds₁ →
      List.Forall₂ (DepFrame cs) ds₁ ds' →
      List.Forall₂ (DepFrame (c :: cs)) ds ds'
  | _, _, _, .nil, .nil => .nil
  | _, _, _, .cons r1 t1, .cons r2 t2 =>
    List.Forall₂.cons
      ⟨r2.1.trans r1.1, r2.2.1.trans r1.2.1, fun n hn hncs =>
        have hne : n ≠ c := fun hc => hncs (hc ▸ List.mem_cons_self c cs)
        have hcs2 : n ∉ cs := fun hmem => hncs (List.mem_cons_of_mem c hmem)
        have heq1 := r1.2.2 n hn hne
        have heq2 := r2.2.2 n (r1.1.trans hn) hcs2
        heq2.trans heq1⟩
      (depFrame_comp t1 t2)

theorem foldME_frame {ci : List (String × ChartVal)} :
    ∀ (cs : List String) {ds ds' : List Dep},
      foldME (fun ds c => mapME (patchDep ci c) ds) ds cs = .ok ds' →
      List.Forall₂ (DepFrame cs) ds ds' := by
  intro cs
  induction cs with
  | nil =>
    intro ds ds' h
    simp only [foldME] at h
    cases h
    refine List.forall₂_same.mpr ?_
    intro d _
    exact ⟨rfl, rfl, fun _ _ _ => rfl⟩
  | cons c cs ih =>
    intro ds ds' h
    rcases hmap : mapME (patchDep ci c) ds with e | ds₁
    · simp [foldME, hmap] at h
    · simp only [foldME, hmap] at h
      exact depFrame_comp (mapME_patch_frame hmap) (ih h)

theorem setTop_map_fst (m : Manifest) (k : String) (v : TopVal) :
    (setTop m k v).map Prod.fst = m.map Prod.fst := by
  induction m with
  | nil => rfl
  | cons kv rest ih =>
    by_cases h : kv.1 = k
    · simp [setTop, h] at ih ⊢
      exact ih
    · simp [setTop, h] at ih ⊢
      exact ih

theorem mem_setTop_ne {m : Manifest} {k : String} {v : TopVal} {kv : String × TopVal}
    (hm : kv ∈ m) (hk : kv.1 ≠ k) : kv ∈ setTop m k v := by
  unfold setTop
  exact List.mem_map.mpr ⟨kv, hm, by rw [if_neg hk]⟩

/-- Counterexample for C6: bumping `dep1` in a manifest whose top-level keys
are not alphabetically ordered succeeds, but the written file —
`yaml.safe_dump` output, which sorts every mapping's keys — differs from the
order-preserving serialization of the patched document: key order is
normalized, not preserved byte-for-byte. -/
theorem safe_dump_reorders_keys :
    update_local_chart ciC6 mC6 ["dep1"] = .ok mC6' ∧
    sortManifest mC6' ≠ mC6' ∧
    safeDump mC6' ≠ serialize mC6' := by
  exact ⟨rfl, by decide, by decide⟩

/-- C6 amended: at the document level the mutator only rewrites the
`version` fields of the dependencies named in the upgrade set — top-level
keys and their order, non-dependency entries, the dependency list's length
and order, every dependency's name and non-version fields, and every
unnamed dependency are all preserved; but the file is then written with
`yaml.safe_dump`, which serializes the key-sorted document rather than
preserving the document's own key order. -/
theorem update_preserves_values (ci : List (String × ChartVal)) (m : Manifest)
    (cs : List String) (m' : Manifest)
    (h : update_local_chart ci m cs = .ok m') :
    m'.map Prod.fst = m.map Prod.fst ∧
    (∀ kv ∈ m, kv.1 ≠ "dependencies" → kv ∈ m') ∧
    (∃ ds ds', dictGet m "dependencies" = some (.depList ds) ∧
      m' = setTop m "dependencies" (.depList ds') ∧
      List.Forall₂ (DepFrame cs) ds ds') ∧
    safeDump m' = serialize (sortManifest m') := by
  unfold update_local_chart at h
  rcases hdep : dictGet m "dependencies" with _ | val
  · simp [hdep] at h
  · cases val with
    | scalar s => simp [hdep] at h
    | depList ds =>
      rcases hfold : foldME (fun ds c => mapME (patchDep ci c) ds) ds cs
        with e | ds₂
      · simp [hdep, hfold] at h
      · simp [hdep, hfold] at h
        subst h
        exact ⟨setTop_map_fst m "dependencies" (.depList ds₂),
          fun kv hm hk => mem_setTop_ne hm hk,
          ⟨ds, ds₂, rfl, rfl, foldME_frame cs hfold⟩, rfl⟩

/-- Witness for C6's amended claim: the concrete bump of `dep1` keeps the
key order of the in-memory document. -/
theorem update_preserves_values_witness :
    mC6'.map Prod.fst = mC6.map Prod.fst :=
  (update_preserves_values ciC6 mC6 ["dep1"] mC6' rfl).1

/-- Counterexample for C7: a chart named in the upgrade set with no matching
dependency entry does not produce any error — the mutator returns the
manifest unchanged (and the source has no `ManifestFormatError` at all; its
only exception classes are `AzureError` and `GitError`). -/
theorem missing_entry_not_error :
    update_local_chart ciC7 mC7 ["other"] = .ok mC7 := rfl

theorem mapME_no_match {ci : List (String × ChartVal)} {c : String} :
    ∀ (ds : List Dep),
      (∀ d ∈ ds, ∃ n, dictGet d "name" = some n ∧ n ≠ c) →
      mapME (patchDep ci c) ds = .ok ds := by
  intro ds
  induction ds with
  | nil => intro _; rfl
  | cons d rest ih =>
    intro h
    rcases h d (List.mem_cons_self d rest) with ⟨n, hn, hne⟩
    have hpd : patchDep ci c d = .ok d := by
      unfold patchDep
      simp [hn, hne]
    simp [mapME, hpd, ih (fun d2 hd2 => h d2 (List.mem_cons_of_mem _ hd2))]

theorem foldME_no_match {ci : List (String × ChartVal)} :
    ∀ (cs : List String) (ds : List Dep),
      (∀ d ∈ ds, depNameOutside cs d = true) →
      foldME (fun ds c => mapME (patchDep ci c) ds) ds cs = .ok ds := by
  intro cs
  induction cs with
  | nil => intro ds _; rfl
  | cons c cs ih =>
    intro ds h
    have hsplit : ∀ d ∈ ds, (∃ n, dictGet d "name" = some n ∧ n ≠ c) ∧
        depNameOutside cs d = true := by
      intro d hd
      have hout := h d hd
      unfold depNameOutside at hout ⊢
      rcases hn : dictGet d "name" with _ | n <;> rw [hn] at hout
      · cases hout
      · simp only [Bool.not_eq_true', List.contains_cons, Bool.or_eq_false_iff] at hout
        refine ⟨⟨n, rfl, ?_⟩, ?_⟩
        · intro hc
          rw [hc] at hout
          simp at hout
        · show (!cs.contains n) = true
          rw [hout.2]
          rfl
    have hmap := @mapME_no_match ci c ds (fun d hd => (hsplit d hd).1)
    simp only [foldME, hmap]
    exact ih ds (fun d hd => (hsplit d hd).2)

/-- C7 amended: when the loaded manifest has no `dependencies` key the
mutator raises a plain `KeyError` (there is no `ManifestFormatError` in the
source); and when no dependency's name is in the upgrade set the mutator
succeeds with the dependency list unchanged — a named chart without an
entry is silently skipped, never an error. -/
theorem manifest_missing_behavior (ci : List (String × ChartVal)) (m : Manifest)
    (cs : List String) :
    (dictGet m "dependencies" = none → update_local_chart ci m cs = .error "KeyError") ∧
    (∀ ds, dictGet m "dependencies" = some (.depList ds) →
      (∀ d ∈ ds, depNameOutside cs d = true) →
      update_local_chart ci m cs = .ok (setTop m "dependencies" (.depList ds))) := by
  constructor
  · intro h
    unfold update_local_chart
    simp [h]
  · intro ds hdep hout
    unfold update_local_chart
    simp [hdep, foldME_no_match cs ds hout]

/-- Witness for C7's amended claim: a manifest without `dependencies` raises
`KeyError`, and the upgrade set `["other"]` leaves `mC7` unchanged. -/
theorem manifest_missing_behavior_witness :
    update_local_chart ciC7 [("name", .scalar "x")] ["other"] = .error "KeyError" ∧
    update_local_chart ciC7 mC7 ["other"] =
      .ok (setTop mC7 "dependencies"
        (.depList [[("name", "dep1"), ("version", "0.1.0")]])) :=
  ⟨(manifest_missing_behavior ciC7 [("name", .scalar "x")] ["other"]).1 (by decide),
   (manifest_missing_behavior ciC7 mC7 ["other"]).2
     [[("name", "dep1"), ("version", "0.1.0")]] (by decide) (by decide)⟩

end HelmBot

